import Mathlib

/-!
Shallow embedding of `src/github_tools.py` (class `GitHubAPIClient`) from the
repository `github_mcp_analyzer`, together with theorems settling the frozen
claims about it.

Modelling conventions:
* Python strings are Lean `String`s; where character-level reasoning is needed
  (issue bodies, substring search) we work on `List Char`, which is exactly the
  character sequence of a Python `str`.
* A naive `datetime` is a `Nat` counting seconds; `timedelta(days=d)` is
  `d * 86400` seconds and `.date()` is division by `86400` (day number).
  `isoformat()` is an injective presentation of the timestamp, so records keep
  the numeric value.
* The PyGithub `Github` handle is a structure of functions (`Upstream`): each
  upstream listing either yields its full list of items or raises a
  `GithubException` (modelled as `GHError` with the `.status` and `str(e)`
  message).  A `GithubException` raised mid-iteration aborts the surrounding
  loop with the partial list discarded, which is what the `Except` error case
  expresses.
* Python exceptions escaping a `GitHubAPIClient` method are the error cases of
  `ClientError`: `ValueError` is split by its message into the invalid-name,
  repository-not-found and readme-not-found cases, `RateLimitExceededException`
  is `rateLimited`, a re-raised `GithubException` is `upstream` (status and
  message preserved), and an `AttributeError` from dereferencing a Python
  `None` is `attrError`.
* `base64.b64decode(...).decode("utf-8")` in `get_readme_content` is not
  modelled bit-for-bit: the upstream readme record carries the decoded text
  (no claim concerns the decoding itself).
-/

/-- The `GithubException` as observed by the client: the `.status` code and the
`str(e)` message used for substring matching. -/
structure GHError where
  status : Nat
  msg : String
deriving DecidableEq, Repr

/-- The exceptions that can escape a `GitHubAPIClient` method. -/
inductive ClientError where
  /-- The `ValueError` for a malformed repository name (no `/`). -/
  | invalidIdentifier (msg : String)
  /-- The `ValueError` for a 404 from the repository lookup. -/
  | notFound (msg : String)
  /-- The `ValueError` for a 404 from the readme lookup. -/
  | readmeNotFound (msg : String)
  /-- The `RateLimitExceededException`. -/
  | rateLimited (msg : String)
  /-- A re-raised `GithubException` (status and message unchanged). -/
  | upstream (status : Nat) (msg : String)
  /-- The `AttributeError` from accessing an attribute of Python `None`. -/
  | attrError (msg : String)
deriving DecidableEq, Repr

/-- Python `sub in l` on character lists: `sub` occurs contiguously in `l`. -/
def hasSubstr (sub : List Char) : List Char → Bool
  | [] => sub.isEmpty
  | c :: t => sub.isPrefixOf (c :: t) || hasSubstr sub t

/-- Python `str.lower()` on a character list (ASCII case folding; the needle
`"rate limit"` is ASCII). -/
def lowerChars (l : List Char) : List Char := l.map Char.toLower

/-- The `"rate limit" in str(e).lower()` — the message half of the rate-limit
test repeated at every classification site in `github_tools.py`. -/
def msgHasRateLimit (msg : String) : Bool :=
  hasSubstr "rate limit".data (lowerChars msg.data)

/-- The `e.status == 403 and "rate limit" in str(e).lower()` — the full rate-limit
condition from `github_tools.py` lines 69, 142, 177, 217. -/
def rateLimitCond (e : GHError) : Bool :=
  e.status == 403 && msgHasRateLimit e.msg

/-- The message of the `RateLimitExceededException` raised by the client. -/
def rateLimitMsg : String :=
  "GitHub API rate limit exceeded. Please try again later."

/-- The `ValueError` message for a repository name without `/`
(`github_tools.py` line 62; quotes around the format elided). -/
def invalidNameMsg (repo_name : String) : String :=
  "Invalid repository name: " ++ repo_name ++
    ". Format should be username/repository."

/-- The `ValueError` message for a 404 on repository lookup (line 68). -/
def notFoundMsg (repo_name : String) : String :=
  "Repository not found: " ++ repo_name

/-- The `except GithubException` body of `get_repository` (lines 66-73):
404 becomes `ValueError`, the 403/"rate limit" pairing becomes
`RateLimitExceededException`, anything else is re-raised. -/
def classifyResolve (repo_name : String) (e : GHError) : ClientError :=
  if e.status == 404 then .notFound (notFoundMsg repo_name)
  else if rateLimitCond e then .rateLimited rateLimitMsg
  else .upstream e.status e.msg

/-- The `except GithubException` body of `get_repository_issues` (141-146)
and `get_commit_history` (216-221): the 403/"rate limit" pairing becomes
`RateLimitExceededException`, anything else is re-raised. -/
def classifyIter (e : GHError) : ClientError :=
  if rateLimitCond e then .rateLimited rateLimitMsg
  else .upstream e.status e.msg

/-- Owner / user account summary (`NamedUser` fields the client reads). -/
structure UpAccount where
  login : String
  avatar_url : String
  html_url : String
deriving DecidableEq, Repr

/-- The `repo.license` (nullable; only `.name` is read). -/
structure UpLicense where
  name : String
deriving DecidableEq, Repr

/-- The `Repository` attributes read by the client. -/
structure UpRepoData where
  name : String
  full_name : String
  description : Option String
  owner : UpAccount
  html_url : String
  url : String
  stargazers_count : Nat
  forks_count : Nat
  watchers_count : Nat
  open_issues_count : Nat
  language : Option String
  license : Option UpLicense
  created_at : Nat
  updated_at : Nat
  pushed_at : Option Nat
  visibility : String
  default_branch : String
deriving DecidableEq, Repr

/-- A label on an issue (only `.name` is read). -/
structure UpLabel where
  name : String
deriving DecidableEq, Repr

/-- The `Issue` attributes read by the client.  `body` is the character
sequence of the Python string, nullable. -/
structure UpIssue where
  number : Nat
  title : String
  state : String
  created_at : Nat
  updated_at : Nat
  closed_at : Option Nat
  user : Option UpAccount
  labels : List UpLabel
  comments : Nat
  html_url : String
  body : Option (List Char)
deriving DecidableEq, Repr

/-- The `commit.commit.author` — the embedded git author record, nullable in the
upstream data model. -/
structure UpGitAuthor where
  name : String
  date : Nat
deriving DecidableEq, Repr

/-- The `commit.stats` line statistics as delivered by the upstream service. -/
structure UpStats where
  additions : Int
  deletions : Int
  total : Int
deriving DecidableEq, Repr

/-- The `Commit` attributes read by the client.  `commitAuthor` stands for
`commit.commit.author` (git author, nullable), `author` for `commit.author`
(GitHub account, nullable). -/
structure UpCommit where
  sha : String
  commitMessage : String
  commitAuthor : Option UpGitAuthor
  author : Option UpAccount
  html_url : String
  stats : UpStats
deriving DecidableEq, Repr

/-- A pull request (only `.merged` is read). -/
structure UpPull where
  merged : Bool
deriving DecidableEq, Repr

/-- A contributor (only `.login` is read). -/
structure UpContributor where
  login : String
deriving DecidableEq, Repr

/-- The readme content file; `contentDecoded` is the UTF-8 text after base64
decoding (the decoding itself is not modelled). -/
structure UpReadme where
  contentDecoded : String
  path : String
  download_url : String
  size : Nat
  name : String
deriving DecidableEq, Repr

/-- The authenticated PyGithub handle: every upstream call the client makes,
as a function from its arguments to either the fully materialised listing or
a raised `GithubException`. -/
structure Upstream where
  /-- The `github.get_repo(repo_name)` -/
  getRepo : String → Except GHError UpRepoData
  /-- The `repo.get_issues(state=..., since=...)`; `none` when no `since` is
  passed. -/
  getIssues : UpRepoData → String → Option Nat → Except GHError (List UpIssue)
  /-- The `repo.get_readme()` -/
  getReadme : UpRepoData → Except GHError UpReadme
  /-- The `repo.get_commits(since=...)` -/
  getCommits : UpRepoData → Nat → Except GHError (List UpCommit)
  /-- The `repo.get_pulls(state=...)` -/
  getPulls : UpRepoData → String → Except GHError (List UpPull)
  /-- The `repo.get_contributors()` -/
  getContributors : UpRepoData → Except GHError (List UpContributor)
  /-- The `repo.get_topics()` -/
  getTopics : UpRepoData → Except GHError (List String)

/-- The `GitHubAPIClient.get_repository` (lines 47-73): reject a name without
`/` locally, otherwise look the repository up and classify upstream
failures. -/
def get_repository (gh : Upstream) (repo_name : String) :
    Except ClientError UpRepoData :=
  if ¬ repo_name.data.contains '/' then
    .error (.invalidIdentifier (invalidNameMsg repo_name))
  else
    match gh.getRepo repo_name with
    | .ok r => .ok r
    | .error e => .error (classifyResolve repo_name e)

/-- A `GithubException` escaping a block with no `except` clause: it
propagates to the caller with status and message unchanged. -/
def liftGH : Except GHError α → Except ClientError α
  | .error e => .error (.upstream e.status e.msg)
  | .ok a => .ok a

/-- The dictionary built by `get_repository_info` (lines 85-108); timestamps
keep their numeric value (`isoformat()` is injective presentation). -/
structure RepoInfo where
  name : String
  full_name : String
  description : Option String
  owner_login : String
  owner_avatar_url : String
  owner_html_url : String
  html_url : String
  api_url : String
  stars : Nat
  forks : Nat
  watchers : Nat
  open_issues : Nat
  language : Option String
  license : Option String
  created_at : Nat
  updated_at : Nat
  pushed_at : Option Nat
  visibility : String
  default_branch : String
  topics : List String
deriving DecidableEq, Repr

/-- The `GitHubAPIClient.get_repository_info` (lines 75-108): one resolve
plus the `repo.get_topics()` upstream call of line 107, which sits outside
any `try`/`except`, so its failure propagates unclassified. -/
def get_repository_info (gh : Upstream) (repo_name : String) :
    Except ClientError RepoInfo := do
  let repo ← get_repository gh repo_name
  let topics ← liftGH (gh.getTopics repo)
  .ok {
    name := repo.name
    full_name := repo.full_name
    description := repo.description
    owner_login := repo.owner.login
    owner_avatar_url := repo.owner.avatar_url
    owner_html_url := repo.owner.html_url
    html_url := repo.html_url
    api_url := repo.url
    stars := repo.stargazers_count
    forks := repo.forks_count
    watchers := repo.watchers_count
    open_issues := repo.open_issues_count
    language := repo.language
    license := repo.license.map (·.name)
    created_at := repo.created_at
    updated_at := repo.updated_at
    pushed_at := repo.pushed_at
    visibility := if repo.visibility = "public" then "public" else "private"
    default_branch := repo.default_branch
    topics := topics }

/-- The `issue.body[:500] + "..." if issue.body and len(issue.body) > 500 else
issue.body` (line 139).  Python truthiness of a string is non-emptiness. -/
def truncateBody (body : Option (List Char)) : Option (List Char) :=
  match body with
  | none => none
  | some b =>
      if ¬ b.isEmpty ∧ b.length > 500 then some (b.take 500 ++ "...".data)
      else some b

/-- One element of the list built by `get_repository_issues` (128-140). -/
structure IssueRec where
  number : Nat
  title : String
  state : String
  created_at : Nat
  updated_at : Nat
  closed_at : Option Nat
  author : Option String
  labels : List String
  comments : Nat
  html_url : String
  body : Option (List Char)
deriving DecidableEq, Repr

/-- The per-issue dictionary construction in the loop body (128-140). -/
def issueToRec (i : UpIssue) : IssueRec :=
  { number := i.number
    title := i.title
    state := i.state
    created_at := i.created_at
    updated_at := i.updated_at
    closed_at := i.closed_at
    author := i.user.map (·.login)
    labels := i.labels.map (·.name)
    comments := i.comments
    html_url := i.html_url
    body := truncateBody i.body }

/-- The `GitHubAPIClient.get_repository_issues` (110-148): resolve, then take the
first `max_issues` of the upstream listing and map each to its record; a
`GithubException` from the iteration is classified by `classifyIter`. -/
def get_repository_issues (gh : Upstream) (repo_name : String)
    (state : String) (max_issues : Nat) : Except ClientError (List IssueRec) := do
  let repo ← get_repository gh repo_name
  match gh.getIssues repo state none with
  | .error e => .error (classifyIter e)
  | .ok issues => .ok ((issues.take max_issues).map issueToRec)

/-- The dictionary built by `get_readme_content` (167-173). -/
structure ReadmeRec where
  content : String
  path : String
  url : String
  size : Nat
  name : String
deriving DecidableEq, Repr

/-- The message of the `ValueError` for a missing readme (line 176). -/
def readmeNotFoundMsg (repo_name : String) : String :=
  "README not found in repository: " ++ repo_name

/-- The `GitHubAPIClient.get_readme_content` (150-181): resolve, fetch and decode
the readme; 404 becomes the readme-specific `ValueError`, the 403/"rate
limit" pairing becomes `RateLimitExceededException`, anything else is
re-raised. -/
def get_readme_content (gh : Upstream) (repo_name : String) :
    Except ClientError ReadmeRec := do
  let repo ← get_repository gh repo_name
  match gh.getReadme repo with
  | .error e =>
      if e.status == 404 then .error (.readmeNotFound (readmeNotFoundMsg repo_name))
      else if rateLimitCond e then .error (.rateLimited rateLimitMsg)
      else .error (.upstream e.status e.msg)
  | .ok readme =>
      .ok { content := readme.contentDecoded
            path := readme.path
            url := readme.download_url
            size := readme.size
            name := readme.name }

/-- One element of the list built by `get_commit_history` (203-215). -/
structure CommitRec where
  sha : String
  message : String
  author : String
  author_login : Option String
  date : Nat
  html_url : String
  stats : UpStats
deriving DecidableEq, Repr

/-- The dictionary built for one commit (203-215) once the git author `ga`
has been dereferenced: `commit.author` (the account) is the only field with a
null guard. -/
def commitRec (c : UpCommit) (ga : UpGitAuthor) : CommitRec :=
  { sha := c.sha
    message := c.commitMessage
    author := ga.name
    author_login := c.author.map (·.login)
    date := ga.date
    html_url := c.html_url
    stats := c.stats }

/-- The loop body of `get_commit_history` (201-215) on one commit:
`commit.commit.author.name` and `commit.commit.author.date` are read with no
null guard, so a missing git author raises `AttributeError`; only
`commit.author` (the account) is guarded. -/
def commitToRec (c : UpCommit) : Except ClientError CommitRec :=
  match c.commitAuthor with
  | none => .error (.attrError "NoneType object has no attribute name")
  | some ga => .ok (commitRec c ga)

/-- The commit loop (201-215): each record in order; the first failure
aborts the whole call with the partial list discarded. -/
def mapCommits : List UpCommit → Except ClientError (List CommitRec)
  | [] => .ok []
  | c :: rest => do
      let r ← commitToRec c
      let rs ← mapCommits rest
      .ok (r :: rs)

/-- Seconds per day: `timedelta(days=1)`. -/
def secPerDay : Nat := 86400

/-- The `GitHubAPIClient.get_commit_history` (183-223): resolve, compute
`since = now - days`, list commits since then, keep the first `max_commits`;
a `GithubException` from the iteration is classified by `classifyIter`
(the `AttributeError` of `commitToRec` is not, matching the
`except GithubException` clause). -/
def get_commit_history (gh : Upstream) (repo_name : String)
    (days max_commits : Nat) (now : Nat) :
    Except ClientError (List CommitRec) := do
  let repo ← get_repository gh repo_name
  let since := now - days * secPerDay
  match gh.getCommits repo since with
  | .error e => .error (classifyIter e)
  | .ok commits => mapCommits (commits.take max_commits)

/-- The dictionary built by `get_activity_metrics` (267-276). -/
structure MetricsRec where
  commit_count : Nat
  open_issues_count : Nat
  closed_issues_count : Nat
  open_prs_count : Nat
  merged_prs_count : Nat
  contributor_count : Nat
  top_contributors : List String
  time_period_days : Nat
deriving DecidableEq, Repr

/-- The `GitHubAPIClient.get_activity_metrics` (225-276): resolve, then six
sequential upstream queries, none wrapped in a `try`/`except` — any
`GithubException` mid-aggregation propagates unclassified. -/
def get_activity_metrics (gh : Upstream) (repo_name : String)
    (days : Nat) (now : Nat) : Except ClientError MetricsRec := do
  let repo ← get_repository gh repo_name
  let since := now - days * secPerDay
  let commits ← liftGH (gh.getCommits repo since)
  let open_issues ← liftGH (gh.getIssues repo "open" (some since))
  let closed_issues ← liftGH (gh.getIssues repo "closed" (some since))
  let open_prs ← liftGH (gh.getPulls repo "open")
  let merged_prs ← liftGH (gh.getPulls repo "closed")
  let contributors ← liftGH (gh.getContributors repo)
  .ok { commit_count := commits.length
        open_issues_count := open_issues.length
        closed_issues_count := closed_issues.length
        open_prs_count := open_prs.length
        merged_prs_count := (merged_prs.filter (·.merged)).length
        contributor_count := contributors.length
        top_contributors := (contributors.take 10).map (·.login)
        time_period_days := days }

/-- The `datetime.date()` as a day number: seconds divided by one day. -/
def dateOf (t : Nat) : Nat := t / secPerDay

/-- The `while current_date <= end_date` loop of `generate_activity_chart`
(312-314): the inclusive ascending day range. -/
def buildDateRange (cur endDay : Nat) : List Nat :=
  if cur ≤ endDay then cur :: buildDateRange (cur + 1) endDay else []
termination_by endDay + 1 - cur
decreasing_by omega

/-- The `commit.commit.author.date.date()` for each commit (297-299): the git
author is dereferenced with no null guard, so a missing one raises
`AttributeError`. -/
def commitDatesE : List UpCommit → Except ClientError (List Nat)
  | [] => .ok []
  | c :: rest =>
      match c.commitAuthor with
      | none => .error (.attrError "NoneType object has no attribute date")
      | some ga => do
          let ds ← commitDatesE rest
          .ok (dateOf ga.date :: ds)

/-- The logical daily histogram computed by `generate_activity_chart`
(290-318): resolve, list the full commit window, bucket by authored calendar
day over the inclusive range `[since.date, today.date]` with missing days
counted zero (`date_counts.get(date, 0)`).  The block has no
`except GithubException` clause, so upstream errors propagate unclassified;
rasterisation (321-348) is the charting collaborator and not modelled. -/
def generate_histogram (gh : Upstream) (repo_name : String)
    (days : Nat) (now : Nat) : Except ClientError (List (Nat × Nat)) := do
  let repo ← get_repository gh repo_name
  let since := now - days * secPerDay
  let commits ← liftGH (gh.getCommits repo since)
  let commitDates ← commitDatesE commits
  let dates := buildDateRange (dateOf since) (dateOf now)
  .ok (dates.map fun d => (d, commitDates.count d))

/-- Python `range(start, stop, step)` as a list (ascending, positive step;
an ill-formed zero step yields the empty list). -/
def pyRange (start stop step : Nat) : List Nat :=
  if h : step = 0 then []
  else if start < stop then start :: pyRange (start + step) stop step
  else []
termination_by stop - start
decreasing_by omega

/-- The x-tick label positions chosen in `generate_activity_chart`
(328-338) as a function of the bucket count `len(dates)`: every `n`-th index
with `n = len(dates) // 14 + 1` when there are more than 14 buckets, else
every index. -/
def labelPositions (b : Nat) : List Nat :=
  if b > 14 then pyRange 0 b (b / 14 + 1) else pyRange 0 b 1

/-- The number of labelled ticks for a histogram with `b` buckets. -/
def labeledTickCount (b : Nat) : Nat := (labelPositions b).length

/-- Discriminator: the call produced a success value. -/
def isOkE {ε α : Type} : Except ε α → Bool
  | .ok _ => true
  | .error _ => false

/-- Discriminator: the call raised `RateLimitExceededException`. -/
def resultRateLimited : Except ClientError α → Bool
  | .error (.rateLimited _) => true
  | _ => false

/-- Discriminator: the call raised the invalid-name `ValueError`. -/
def resultInvalidId : Except ClientError α → Bool
  | .error (.invalidIdentifier _) => true
  | _ => false

/-- The well-formedness predicate of the specification: the identifier holds
exactly one `/` separating two non-empty segments. -/
def wellFormedId (s : String) : Bool :=
  s.data.count '/' == 1 &&
    !(s.data.takeWhile (fun c => c ≠ '/')).isEmpty &&
    !((s.data.dropWhile (fun c => c ≠ '/')).drop 1).isEmpty

/-- Fixture account. -/
def acctFix : UpAccount := { login := "octo", avatar_url := "av", html_url := "hu" }

/-- Fixture repository data. -/
def repoFix : UpRepoData :=
  { name := "demo"
    full_name := "octo/demo"
    description := none
    owner := acctFix
    html_url := "hr"
    url := "ur"
    stargazers_count := 3
    forks_count := 1
    watchers_count := 3
    open_issues_count := 0
    language := some "Python"
    license := none
    created_at := 0
    updated_at := 0
    pushed_at := none
    visibility := "public"
    default_branch := "main" }

/-- Fixture readme. -/
def readmeFix : UpReadme :=
  { contentDecoded := "hello", path := "README.md", download_url := "du"
    size := 5, name := "README.md" }

/-- An upstream where every call succeeds with empty listings. -/
def emptyUp : Upstream :=
  { getRepo := fun _ => .ok repoFix
    getIssues := fun _ _ _ => .ok []
    getReadme := fun _ => .ok readmeFix
    getCommits := fun _ _ => .ok []
    getPulls := fun _ _ => .ok []
    getContributors := fun _ => .ok []
    getTopics := fun _ => .ok [] }

/-- A name with no `/` makes `get_repository` fail locally, whatever the
upstream would do. -/
theorem get_repository_noslash (gh : Upstream) (name : String)
    (h : name.data.contains '/' = false) :
    get_repository gh name = .error (.invalidIdentifier (invalidNameMsg name)) := by
  have h' : '/' ∉ name.data := by simpa using h
  simp [get_repository, h']

/-- C1, claim as frozen, fails: `"a//b"` does not consist of exactly one `/`
between two non-empty segments, yet `getRepositoryInfo` does not fail with
`InvalidIdentifier` — the local check only requires that some `/` occur, so
the identifier is sent upstream and the call succeeds. -/
theorem C1_counterexample :
    wellFormedId "a//b" = false ∧
    isOkE (get_repository_info emptyUp "a//b") = true ∧
    resultInvalidId (get_repository_info emptyUp "a//b") = false := by
  refine ⟨by decide, ?_, ?_⟩ <;> rfl

/-- C1 (amended): for every identifier containing no `/` at all, each of the
six operations fails with the invalid-name `ValueError`, uniformly in the
upstream handle (so before any upstream call can matter); identifiers that do
contain a `/` are not rejected locally, however malformed. -/
theorem C1_amended (gh : Upstream) (name state : String)
    (n days maxC now : Nat) (h : name.data.contains '/' = false) :
    get_repository_info gh name = .error (.invalidIdentifier (invalidNameMsg name)) ∧
    get_repository_issues gh name state n = .error (.invalidIdentifier (invalidNameMsg name)) ∧
    get_readme_content gh name = .error (.invalidIdentifier (invalidNameMsg name)) ∧
    get_commit_history gh name days maxC now = .error (.invalidIdentifier (invalidNameMsg name)) ∧
    get_activity_metrics gh name days now = .error (.invalidIdentifier (invalidNameMsg name)) ∧
    generate_histogram gh name days now = .error (.invalidIdentifier (invalidNameMsg name)) := by
  have hr := get_repository_noslash gh name h
  refine ⟨?_, ?_, ?_, ?_, ?_, ?_⟩ <;>
    simp [get_repository_info, get_repository_issues, get_readme_content,
      get_commit_history, get_activity_metrics, generate_histogram, hr,
      Bind.bind, Except.bind]

/-- Witness for `C1_amended` at the identifier `"abc"`. -/
theorem C1_amended_witness :
    get_repository_info emptyUp "abc" = .error (.invalidIdentifier (invalidNameMsg "abc")) ∧
    get_repository_issues emptyUp "abc" "open" 5 = .error (.invalidIdentifier (invalidNameMsg "abc")) ∧
    get_readme_content emptyUp "abc" = .error (.invalidIdentifier (invalidNameMsg "abc")) ∧
    get_commit_history emptyUp "abc" 30 50 2592000 = .error (.invalidIdentifier (invalidNameMsg "abc")) ∧
    get_activity_metrics emptyUp "abc" 30 2592000 = .error (.invalidIdentifier (invalidNameMsg "abc")) ∧
    generate_histogram emptyUp "abc" 30 2592000 = .error (.invalidIdentifier (invalidNameMsg "abc")) :=
  C1_amended emptyUp "abc" "open" 5 30 50 2592000 (by decide)

/-- A fixture repository whose upstream visibility is the non-standard value
`"internal"`. -/
def repoInternal : UpRepoData := { repoFix with visibility := "internal" }

/-- An upstream resolving every name to `repoInternal`. -/
def ghInternal : Upstream := { emptyUp with getRepo := fun _ => .ok repoInternal }

/-- C9: when the resolve and the topic-list fetch of line 107 both succeed,
`get_repository_info` succeeds, its `visibility` field is one of the two
values `"public"`/`"private"`, equal to `"public"` exactly when the upstream
value is `"public"`, and its `topics` field is the fetched topic list. -/
theorem C9_visibility_normalized (gh : Upstream) (name : String)
    (repo : UpRepoData) (ts : List String)
    (h : get_repository gh name = .ok repo)
    (hts : gh.getTopics repo = .ok ts) :
    ∃ info, get_repository_info gh name = .ok info ∧
      (info.visibility = "public" ∨ info.visibility = "private") ∧
      (info.visibility = "public" ↔ repo.visibility = "public") ∧
      info.topics = ts := by
  simp only [get_repository_info, h, hts, liftGH, Bind.bind, Except.bind]
  refine ⟨_, rfl, ?_, ?_, rfl⟩ <;>
    by_cases hv : repo.visibility = "public" <;> simp [hv]

/-- Witness for `C9_visibility_normalized` on the `visibility="internal"`
fixture of the specification. -/
theorem C9_witness :
    ∃ info, get_repository_info ghInternal "octo/demo" = .ok info ∧
      (info.visibility = "public" ∨ info.visibility = "private") ∧
      (info.visibility = "public" ↔ repoInternal.visibility = "public") ∧
      info.topics = [] :=
  C9_visibility_normalized ghInternal "octo/demo" repoInternal [] rfl rfl

/-- Fixture git author. -/
def gaFix : UpGitAuthor := { name := "Ann", date := 100000 }

/-- A commit whose embedded git-author record is absent but whose GitHub
account author is present. -/
def ghostCommit : UpCommit :=
  { sha := "a94a8fe5ccb19ba61c4c0873d391e987982fbbd3"
    commitMessage := "fix"
    commitAuthor := none
    author := some acctFix
    html_url := "cu"
    stats := { additions := 1, deletions := 2, total := 3 } }

/-- A commit whose git-author record is present but whose GitHub account
author is absent (deleted account). -/
def guardedCommit : UpCommit :=
  { ghostCommit with commitAuthor := some gaFix, author := none }

/-- Upstream delivering only `ghostCommit`. -/
def ghGhost : Upstream := { emptyUp with getCommits := fun _ _ => .ok [ghostCommit] }

/-- Upstream delivering only `guardedCommit`. -/
def ghGuarded : Upstream := { emptyUp with getCommits := fun _ _ => .ok [guardedCommit] }

/-- C10: the nullable-author guard in `get_commit_history` covers only the
GitHub account author.  On an input whose commit has no embedded git-author
record the call fails with an unclassified `AttributeError` (in particular
not `RateLimitExceededException`), while a missing account author is handled
and yields a record with `author_login = None`. -/
theorem C10_git_author_unguarded :
    get_commit_history ghGhost "octo/demo" 30 50 2592000 =
      .error (.attrError "NoneType object has no attribute name") ∧
    resultRateLimited (get_commit_history ghGhost "octo/demo" 30 50 2592000) = false ∧
    resultInvalidId (get_commit_history ghGhost "octo/demo" 30 50 2592000) = false ∧
    get_commit_history ghGuarded "octo/demo" 30 50 2592000 = .ok [commitRec guardedCommit gaFix] ∧
    (commitRec guardedCommit gaFix).author_login = none :=
  ⟨rfl, rfl, rfl, rfl, rfl⟩

/-- The truncation rule stated by the specification for one issue body. -/
def truncRule (inBody outBody : Option (List Char)) : Prop :=
  (inBody = none → outBody = none) ∧
  (∀ b, inBody = some b → b.length ≤ 500 → outBody = some b) ∧
  (∀ b, inBody = some b → b.length > 500 →
    ∃ out, outBody = some out ∧ out.length = 503 ∧
      out.take 500 = b.take 500 ∧ out.drop 500 = "...".data)

/-- The function `truncateBody` satisfies the specification's truncation rule. -/
theorem truncateBody_rule (inBody : Option (List Char)) :
    truncRule inBody (truncateBody inBody) := by
  refine ⟨?_, ?_, ?_⟩
  · intro h; subst h; rfl
  · intro b hb hle
    subst hb
    simp only [truncateBody]
    rw [if_neg]
    intro ⟨_, hgt⟩
    omega
  · intro b hb hgt
    subst hb
    have hne : ¬ b.isEmpty := by
      cases b with
      | nil => simp at hgt
      | cons x t => simp [List.isEmpty]
    simp only [truncateBody]
    rw [if_pos ⟨hne, hgt⟩]
    have htl : (b.take 500).length = 500 := by
      rw [List.length_take]
      omega
    refine ⟨_, rfl, ?_, ?_, ?_⟩
    · rw [List.length_append, htl]
      rfl
    · exact List.take_left' htl
    · exact List.drop_left' htl

/-- C4: every issue record returned by `get_repository_issues` carries the
body of its source issue passed through `truncateBody`, and that
transformation obeys the truncation rule: null stays null, a body of
length at most 500 is unchanged, and a longer body becomes its first 500
characters followed by `"..."`, of length exactly 503. -/
theorem C4_body_truncation (gh : Upstream) (name state : String) (n : Nat)
    (repo : UpRepoData) (ups : List UpIssue) (recs : List IssueRec)
    (hrepo : get_repository gh name = .ok repo)
    (hups : gh.getIssues repo state none = .ok ups)
    (hres : get_repository_issues gh name state n = .ok recs) :
    ∀ r ∈ recs, ∃ i ∈ ups.take n,
      r = issueToRec i ∧ r.body = truncateBody i.body ∧ truncRule i.body r.body := by
  rw [get_repository_issues] at hres
  rw [hrepo] at hres
  simp only [Bind.bind, Except.bind, hups] at hres
  cases hres
  intro r hr
  obtain ⟨i, hi, rfl⟩ := List.mem_map.mp hr
  exact ⟨i, hi, rfl, rfl, truncateBody_rule i.body⟩

/-- An issue whose body is 501 characters long. -/
def issueLong : UpIssue :=
  { number := 7
    title := "t"
    state := "open"
    created_at := 0
    updated_at := 0
    closed_at := none
    user := some acctFix
    labels := []
    comments := 0
    html_url := "iu"
    body := some (List.replicate 501 'a') }

/-- Upstream delivering only `issueLong`. -/
def ghLongBody : Upstream := { emptyUp with getIssues := fun _ _ _ => .ok [issueLong] }

/-- Witness for `C4_body_truncation` on a 501-character body. -/
theorem C4_witness :
    ∃ i ∈ [issueLong].take 5,
      issueToRec issueLong = issueToRec i ∧
      (issueToRec issueLong).body = truncateBody i.body ∧
      truncRule i.body (issueToRec issueLong).body :=
  C4_body_truncation ghLongBody "octo/demo" "open" 5 repoFix [issueLong]
    [issueToRec issueLong] rfl rfl rfl (issueToRec issueLong) (by simp)

/-- Length of an ascending Python range: the ceiling of the span divided by
the step (fuel-indexed auxiliary form). -/
theorem pyRange_length_aux (d : Nat) : ∀ start stop step, 0 < step →
    stop - start ≤ d →
    (pyRange start stop step).length = (stop - start + step - 1) / step := by
  induction d with
  | zero =>
      intro s e k hk hd
      rw [pyRange, dif_neg (by omega)]
      have hse : ¬ s < e := by omega
      rw [if_neg hse]
      have h0 : e - s = 0 := by omega
      rw [h0]
      have : k - 1 < k := by omega
      simp [Nat.div_eq_of_lt this]
  | succ m ih =>
      intro s e k hk hd
      rw [pyRange, dif_neg (by omega)]
      by_cases hse : s < e
      · rw [if_pos hse]
        simp only [List.length_cons]
        rw [ih (s + k) e k hk (by omega)]
        by_cases hle : e ≤ s + k
        · have h1 : e - (s + k) = 0 := by omega
          rw [h1]
          have h2 : (0 + k - 1) / k = 0 := Nat.div_eq_of_lt (by omega)
          rw [h2]
          have h3 : e - s + k - 1 = (e - s - 1) + 1 * k := by omega
          rw [h3, Nat.add_mul_div_right _ _ hk]
          have h4 : (e - s - 1) / k = 0 := Nat.div_eq_of_lt (by omega)
          omega
        · have h3 : e - s + k - 1 = (e - (s + k) + k - 1) + k := by omega
          rw [h3, Nat.add_div_right _ hk]
      · rw [if_neg hse]
        have h0 : e - s = 0 := by omega
        rw [h0]
        simp [Nat.div_eq_of_lt (show k - 1 < k by omega)]

/-- C6: the number of labelled ticks is a pure function of the bucket count
`b`: `⌈b / n⌉` with `n = ⌊b / 14⌋ + 1` when `b > 14`, and `b` itself
otherwise (the ceiling written as `(b + n - 1) / n`). -/
theorem C6_label_thinning (b : Nat) :
    labeledTickCount b =
      if b > 14 then (b + (b / 14 + 1) - 1) / (b / 14 + 1) else b := by
  unfold labeledTickCount labelPositions
  by_cases hb : b > 14
  · rw [if_pos hb, if_pos hb,
      pyRange_length_aux b 0 b (b / 14 + 1) (by omega) (by omega),
      Nat.sub_zero]
  · rw [if_neg hb, if_neg hb,
      pyRange_length_aux b 0 b 1 (by omega) (by omega)]
    omega

/-- C7: `get_repository_issues` returns at most `max_issues` records, equal
to the first `max_issues` upstream issues in listing order mapped through
`issueToRec`; when the requested state filter is `open` or `closed` and the
upstream listing honours it, every returned record carries that state. -/
theorem C7_list_issues_bounded (gh : Upstream) (name state : String)
    (n : Nat) (repo : UpRepoData) (ups : List UpIssue)
    (hrepo : get_repository gh name = .ok repo)
    (hups : gh.getIssues repo state none = .ok ups)
    (hfilter : state = "open" ∨ state = "closed" → ∀ i ∈ ups, i.state = state) :
    ∃ recs, get_repository_issues gh name state n = .ok recs ∧
      recs.length ≤ n ∧
      recs = (ups.take n).map issueToRec ∧
      (state = "open" ∨ state = "closed" → ∀ r ∈ recs, r.state = state) := by
  refine ⟨(ups.take n).map issueToRec, ?_, ?_, rfl, ?_⟩
  · rw [get_repository_issues, hrepo]
    simp only [Bind.bind, Except.bind, hups]
  · rw [List.length_map, List.length_take]
    omega
  · intro hs r hr
    obtain ⟨i, hi, rfl⟩ := List.mem_map.mp hr
    exact hfilter hs i (List.mem_of_mem_take hi)

/-- A short open issue. -/
def issueShort : UpIssue := { issueLong with number := 8, body := some "ok".data }

/-- Upstream delivering two open issues. -/
def ghTwoIssues : Upstream :=
  { emptyUp with getIssues := fun _ _ _ => .ok [issueLong, issueShort] }

/-- Witness for `C7_list_issues_bounded`: two upstream issues, bound 5. -/
theorem C7_witness :
    ∃ recs, get_repository_issues ghTwoIssues "octo/demo" "open" 5 = .ok recs ∧
      recs.length ≤ 5 ∧
      recs = ([issueLong, issueShort].take 5).map issueToRec ∧
      ("open" = "open" ∨ "open" = "closed" → ∀ r ∈ recs, r.state = "open") :=
  C7_list_issues_bounded ghTwoIssues "octo/demo" "open" 5 repoFix
    [issueLong, issueShort] rfl rfl (by intro _ i hi; fin_cases hi <;> rfl)

/-- When every commit in the list carries its git-author record, the commit
loop succeeds and produces exactly the per-commit records, in order. -/
theorem mapCommits_ok (l : List UpCommit)
    (h : ∀ c ∈ l, ∃ ga, c.commitAuthor = some ga) :
    ∃ recs, mapCommits l = .ok recs ∧ recs.length = l.length ∧
      ∀ r ∈ recs, ∃ c ∈ l, ∃ ga, c.commitAuthor = some ga ∧ r = commitRec c ga := by
  induction l with
  | nil => exact ⟨[], rfl, rfl, by simp⟩
  | cons c rest ih =>
      obtain ⟨ga, hga⟩ := h c (List.mem_cons_self c rest)
      obtain ⟨recs, hrecs, hlen, hmem⟩ := ih (fun x hx => h x (List.mem_cons_of_mem c hx))
      refine ⟨commitRec c ga :: recs, ?_, by simp [hlen], ?_⟩
      · rw [mapCommits]
        simp only [commitToRec, hga, Bind.bind, Except.bind, hrecs]
      · intro r hr
        rcases List.mem_cons.mp hr with hr | hr
        · exact ⟨c, List.mem_cons_self c rest, ga, hga, hr⟩
        · obtain ⟨c', hc', ga', hga', hr'⟩ := hmem r hr
          exact ⟨c', List.mem_cons_of_mem c hc', ga', hga', hr'⟩

/-- C8: under the upstream contract (listed commits are authored at or after
`since = now - days` and carry non-negative statistics with
`total = additions + deletions`), `get_commit_history` succeeds with at
most `max_commits` records, each authored at or after `since` and each with
non-negative `additions`, `deletions` and `total` satisfying
`total = additions + deletions`. -/
theorem C8_commit_history (gh : Upstream) (name : String)
    (days maxC now : Nat) (repo : UpRepoData) (ups : List UpCommit)
    (hrepo : get_repository gh name = .ok repo)
    (hups : gh.getCommits repo (now - days * secPerDay) = .ok ups)
    (hwin : ∀ c ∈ ups, ∃ ga, c.commitAuthor = some ga ∧
      now - days * secPerDay ≤ ga.date)
    (hstats : ∀ c ∈ ups, 0 ≤ c.stats.additions ∧ 0 ≤ c.stats.deletions ∧
      c.stats.total = c.stats.additions + c.stats.deletions) :
    ∃ recs, get_commit_history gh name days maxC now = .ok recs ∧
      recs.length ≤ maxC ∧
      ∀ r ∈ recs, now - days * secPerDay ≤ r.date ∧
        0 ≤ r.stats.additions ∧ 0 ≤ r.stats.deletions ∧ 0 ≤ r.stats.total ∧
        r.stats.total = r.stats.additions + r.stats.deletions := by
  obtain ⟨recs, hrecs, hlen, hmem⟩ :=
    mapCommits_ok (ups.take maxC) (fun c hc => by
      obtain ⟨ga, hga, _⟩ := hwin c (List.mem_of_mem_take hc)
      exact ⟨ga, hga⟩)
  refine ⟨recs, ?_, ?_, ?_⟩
  · rw [get_commit_history, hrepo]
    simp only [Bind.bind, Except.bind, hups, hrecs]
  · rw [hlen, List.length_take]
    omega
  · intro r hr
    obtain ⟨c, hc, ga, hga, rfl⟩ := hmem r hr
    have hc' := List.mem_of_mem_take hc
    obtain ⟨ga', hga', hdate⟩ := hwin c hc'
    rw [hga] at hga'
    cases hga'
    obtain ⟨ha, hd, ht⟩ := hstats c hc'
    simp only [commitRec]
    exact ⟨hdate, ha, hd, by omega, ht⟩

/-- A commit inside the 30-day window with consistent statistics. -/
def commitFix : UpCommit :=
  { ghostCommit with commitAuthor := some { name := "Ann", date := 2000000 } }

/-- Upstream delivering only `commitFix`. -/
def ghOneCommit : Upstream := { emptyUp with getCommits := fun _ _ => .ok [commitFix] }

/-- Witness for `C8_commit_history` with one in-window commit. -/
theorem C8_witness :
    ∃ recs, get_commit_history ghOneCommit "octo/demo" 30 50 2592000 = .ok recs ∧
      recs.length ≤ 50 ∧
      ∀ r ∈ recs, 2592000 - 30 * secPerDay ≤ r.date ∧
        0 ≤ r.stats.additions ∧ 0 ≤ r.stats.deletions ∧ 0 ≤ r.stats.total ∧
        r.stats.total = r.stats.additions + r.stats.deletions :=
  C8_commit_history ghOneCommit "octo/demo" 30 50 2592000 repoFix [commitFix]
    rfl rfl
    (by intro c hc; fin_cases hc; exact ⟨_, rfl, by decide⟩)
    (by intro c hc; fin_cases hc; refine ⟨by decide, by decide, by decide⟩)

/-- The rate-limit condition as a proposition. -/
theorem rateLimitCond_iff (e : GHError) :
    rateLimitCond e = true ↔ e.status = 403 ∧ msgHasRateLimit e.msg = true := by
  simp [rateLimitCond]

/-- The function `classifyResolve` yields `RateLimitExceededException` exactly on the
403/"rate limit" pairing. -/
theorem classifyResolve_rl (name : String) (e : GHError) :
    classifyResolve name e = .rateLimited rateLimitMsg ↔
      e.status = 403 ∧ msgHasRateLimit e.msg = true := by
  unfold classifyResolve
  by_cases h4 : e.status = 404
  · simp [h4]
  · by_cases hc : rateLimitCond e = true
    · have hp := (rateLimitCond_iff e).mp hc
      simp [h4, hc, hp]
    · have hp : ¬(e.status = 403 ∧ msgHasRateLimit e.msg = true) :=
        fun hh => hc ((rateLimitCond_iff e).mpr hh)
      simp [h4, hc, hp]

/-- The function `classifyResolve` passes any other non-404 failure through unchanged. -/
theorem classifyResolve_pass (name : String) (e : GHError)
    (h4 : e.status ≠ 404)
    (hc : ¬(e.status = 403 ∧ msgHasRateLimit e.msg = true)) :
    classifyResolve name e = .upstream e.status e.msg := by
  have hc' : ¬ rateLimitCond e = true := fun hh => hc ((rateLimitCond_iff e).mp hh)
  simp [classifyResolve, h4, hc']

/-- The function `classifyIter` yields `RateLimitExceededException` exactly on the
403/"rate limit" pairing, and passes anything else through unchanged. -/
theorem classifyIter_cases (e : GHError) :
    (classifyIter e = .rateLimited rateLimitMsg ↔
      e.status = 403 ∧ msgHasRateLimit e.msg = true) ∧
    (¬(e.status = 403 ∧ msgHasRateLimit e.msg = true) →
      classifyIter e = .upstream e.status e.msg) := by
  constructor
  · unfold classifyIter
    by_cases hc : rateLimitCond e = true
    · have hp := (rateLimitCond_iff e).mp hc
      simp [hc, hp]
    · have hp : ¬(e.status = 403 ∧ msgHasRateLimit e.msg = true) :=
        fun hh => hc ((rateLimitCond_iff e).mpr hh)
      simp [hc, hp]
  · intro hp
    have hc' : ¬ rateLimitCond e = true := fun hh => hp ((rateLimitCond_iff e).mp hh)
    simp [classifyIter, hc']

/-- A failing repository lookup surfaces through `classifyResolve`. -/
theorem get_repository_err (gh : Upstream) (name : String) (e : GHError)
    (hct : name.data.contains '/' = true) (hre : gh.getRepo name = .error e) :
    get_repository gh name = .error (classifyResolve name e) := by
  rw [get_repository, if_neg, hre]
  simpa using hct

/-- A failing issue listing surfaces through `classifyIter`. -/
theorem get_repository_issues_err (gh : Upstream) (name state : String)
    (n : Nat) (repo : UpRepoData) (e : GHError)
    (hrepo : get_repository gh name = .ok repo)
    (hups : gh.getIssues repo state none = .error e) :
    get_repository_issues gh name state n = .error (classifyIter e) := by
  rw [get_repository_issues, hrepo]
  simp only [Bind.bind, Except.bind, hups]

/-- A failing commit listing surfaces through `classifyIter`. -/
theorem get_commit_history_err (gh : Upstream) (name : String)
    (days maxC now : Nat) (repo : UpRepoData) (e : GHError)
    (hrepo : get_repository gh name = .ok repo)
    (hups : gh.getCommits repo (now - days * secPerDay) = .error e) :
    get_commit_history gh name days maxC now = .error (classifyIter e) := by
  rw [get_commit_history, hrepo]
  simp only [Bind.bind, Except.bind, hups]

/-- C2: an upstream failure is classified as `RateLimitExceededException`
exactly when its status is 403 and its message contains `"rate limit"` after
lowercasing — at the initial resolve and mid-iteration in both
`get_repository_issues` and `get_commit_history`; a non-404 failure not
matching that pairing propagates unchanged as the original status/message,
and the message test depends only on the lowercased message. -/
theorem C2_rate_limit_classification :
    (∀ (gh : Upstream) (name : String) (e : GHError),
      name.data.contains '/' = true → gh.getRepo name = .error e →
      (get_repository gh name = .error (.rateLimited rateLimitMsg) ↔
        e.status = 403 ∧ msgHasRateLimit e.msg = true)) ∧
    (∀ (gh : Upstream) (name : String) (e : GHError),
      name.data.contains '/' = true → gh.getRepo name = .error e →
      e.status ≠ 404 → ¬(e.status = 403 ∧ msgHasRateLimit e.msg = true) →
      get_repository gh name = .error (.upstream e.status e.msg)) ∧
    (∀ (gh : Upstream) (name state : String) (n : Nat) (repo : UpRepoData)
      (e : GHError), get_repository gh name = .ok repo →
      gh.getIssues repo state none = .error e →
      ((get_repository_issues gh name state n = .error (.rateLimited rateLimitMsg) ↔
          e.status = 403 ∧ msgHasRateLimit e.msg = true) ∧
        (¬(e.status = 403 ∧ msgHasRateLimit e.msg = true) →
          get_repository_issues gh name state n = .error (.upstream e.status e.msg)))) ∧
    (∀ (gh : Upstream) (name : String) (days maxC now : Nat) (repo : UpRepoData)
      (e : GHError), get_repository gh name = .ok repo →
      gh.getCommits repo (now - days * secPerDay) = .error e →
      ((get_commit_history gh name days maxC now = .error (.rateLimited rateLimitMsg) ↔
          e.status = 403 ∧ msgHasRateLimit e.msg = true) ∧
        (¬(e.status = 403 ∧ msgHasRateLimit e.msg = true) →
          get_commit_history gh name days maxC now = .error (.upstream e.status e.msg)))) ∧
    (∀ m₁ m₂ : String, lowerChars m₁.data = lowerChars m₂.data →
      msgHasRateLimit m₁ = msgHasRateLimit m₂) := by
  refine ⟨?_, ?_, ?_, ?_, ?_⟩
  · intro gh name e hct hre
    rw [get_repository_err gh name e hct hre]
    simp only [Except.error.injEq]
    exact classifyResolve_rl name e
  · intro gh name e hct hre h4 hc
    rw [get_repository_err gh name e hct hre, classifyResolve_pass name e h4 hc]
  · intro gh name state n repo e hrepo hups
    rw [get_repository_issues_err gh name state n repo e hrepo hups]
    simp only [Except.error.injEq]
    exact classifyIter_cases e
  · intro gh name days maxC now repo e hrepo hups
    rw [get_commit_history_err gh name days maxC now repo e hrepo hups]
    simp only [Except.error.injEq]
    exact classifyIter_cases e
  · intro m₁ m₂ h
    unfold msgHasRateLimit
    rw [h]

/-- A 403 upstream failure with a mixed-case rate-limit message. -/
def e403 : GHError := { status := 403, msg := "API Rate Limit Exceeded" }

/-- A plain 500 upstream failure. -/
def e500 : GHError := { status := 500, msg := "Server Error" }

/-- Upstream whose resolve fails with `e403`. -/
def ghResolveRL : Upstream := { emptyUp with getRepo := fun _ => .error e403 }

/-- Upstream whose resolve fails with `e500`. -/
def ghResolve500 : Upstream := { emptyUp with getRepo := fun _ => .error e500 }

/-- Upstream whose issue listing fails with `e403`. -/
def ghIssuesRL : Upstream := { emptyUp with getIssues := fun _ _ _ => .error e403 }

/-- Upstream whose commit listing fails with `e500`. -/
def ghCommits500 : Upstream := { emptyUp with getCommits := fun _ _ => .error e500 }

/-- Witness for `C2_rate_limit_classification` on concrete failures. -/
theorem C2_witness :
    ((get_repository ghResolveRL "octo/demo" = .error (.rateLimited rateLimitMsg)) ↔
      e403.status = 403 ∧ msgHasRateLimit e403.msg = true) ∧
    (get_repository ghResolve500 "octo/demo" = .error (.upstream e500.status e500.msg)) ∧
    (((get_repository_issues ghIssuesRL "octo/demo" "open" 5 = .error (.rateLimited rateLimitMsg)) ↔
        e403.status = 403 ∧ msgHasRateLimit e403.msg = true) ∧
      (¬(e403.status = 403 ∧ msgHasRateLimit e403.msg = true) →
        get_repository_issues ghIssuesRL "octo/demo" "open" 5 = .error (.upstream e403.status e403.msg))) ∧
    (((get_commit_history ghCommits500 "octo/demo" 30 50 2592000 = .error (.rateLimited rateLimitMsg)) ↔
        e500.status = 403 ∧ msgHasRateLimit e500.msg = true) ∧
      (¬(e500.status = 403 ∧ msgHasRateLimit e500.msg = true) →
        get_commit_history ghCommits500 "octo/demo" 30 50 2592000 = .error (.upstream e500.status e500.msg))) ∧
    msgHasRateLimit "RATE LIMIT hit" = msgHasRateLimit "rate limit hit" := by
  obtain ⟨h1, h2, h3, h4, h5⟩ := C2_rate_limit_classification
  exact ⟨h1 ghResolveRL "octo/demo" e403 (by decide) rfl,
    h2 ghResolve500 "octo/demo" e500 (by decide) rfl (by decide) (by decide),
    h3 ghIssuesRL "octo/demo" "open" 5 repoFix e403 rfl rfl,
    h4 ghCommits500 "octo/demo" 30 50 2592000 repoFix e500 rfl rfl,
    h5 "RATE LIMIT hit" "rate limit hit" (by decide)⟩

/-- A 403 rate-limit failure as raised by the upstream service. -/
def eRL : GHError := { status := 403, msg := "API rate limit exceeded" }

/-- Upstream whose commit listing fails with the rate-limit failure `eRL`
while everything else succeeds. -/
def ghMetricsRL : Upstream := { emptyUp with getCommits := fun _ _ => .error eRL }

/-- C3, claim as frozen, fails on the rate-limit half: here the windowed
commit count sub-query of `get_activity_metrics` fails with the 403/"rate
limit" pairing, no metrics record is returned — but the failure surfaces as
the raw upstream error, not as `RateLimitExceededException`, because
`get_activity_metrics` has no `except` clause of its own. -/
theorem C3_counterexample :
    rateLimitCond eRL = true ∧
    get_activity_metrics ghMetricsRL "octo/demo" 30 2592000 =
      .error (.upstream 403 "API rate limit exceeded") ∧
    resultRateLimited (get_activity_metrics ghMetricsRL "octo/demo" 30 2592000) = false :=
  ⟨by decide, rfl, rfl⟩

/-- C3 (amended): `get_activity_metrics` is all-or-nothing — a metrics
record is returned only when the resolve and all six upstream queries
succeed — and a failure in any sub-query aborts the aggregation; but the
failure propagates as the raw upstream error (original status and message),
never as `RateLimitExceededException`: after a successful resolve the
operation cannot surface `RateLimited` at all. -/
theorem C3_all_or_nothing :
    (∀ (gh : Upstream) (name : String) (days now : Nat) (m : MetricsRec),
      get_activity_metrics gh name days now = .ok m →
      ∃ repo, get_repository gh name = .ok repo ∧
        isOkE (gh.getCommits repo (now - days * secPerDay)) = true ∧
        isOkE (gh.getIssues repo "open" (some (now - days * secPerDay))) = true ∧
        isOkE (gh.getIssues repo "closed" (some (now - days * secPerDay))) = true ∧
        isOkE (gh.getPulls repo "open") = true ∧
        isOkE (gh.getPulls repo "closed") = true ∧
        isOkE (gh.getContributors repo) = true) ∧
    (∀ (gh : Upstream) (name : String) (days now : Nat) (repo : UpRepoData),
      get_repository gh name = .ok repo →
      resultRateLimited (get_activity_metrics gh name days now) = false) := by
  constructor
  · intro gh name days now m h
    rw [get_activity_metrics] at h
    cases hrepo : get_repository gh name with
    | error c => simp [hrepo, Bind.bind, Except.bind] at h
    | ok repo =>
      simp only [hrepo, Bind.bind, Except.bind] at h
      refine ⟨repo, rfl, ?_⟩
      cases h1 : gh.getCommits repo (now - days * secPerDay) with
      | error e => simp [h1, liftGH] at h
      | ok l1 =>
        simp only [h1, liftGH] at h
        cases h2 : gh.getIssues repo "open" (some (now - days * secPerDay)) with
        | error e => simp [h2, liftGH] at h
        | ok l2 =>
          simp only [h2, liftGH] at h
          cases h3 : gh.getIssues repo "closed" (some (now - days * secPerDay)) with
          | error e => simp [h3, liftGH] at h
          | ok l3 =>
            simp only [h3, liftGH] at h
            cases h4 : gh.getPulls repo "open" with
            | error e => simp [h4, liftGH] at h
            | ok l4 =>
              simp only [h4, liftGH] at h
              cases h5 : gh.getPulls repo "closed" with
              | error e => simp [h5, liftGH] at h
              | ok l5 =>
                simp only [h5, liftGH] at h
                cases h6 : gh.getContributors repo with
                | error e => simp [h6, liftGH] at h
                | ok l6 => exact ⟨rfl, rfl, rfl, rfl, rfl, rfl⟩
  · intro gh name days now repo hrepo
    rw [get_activity_metrics]
    simp only [hrepo, Bind.bind, Except.bind]
    cases h1 : gh.getCommits repo (now - days * secPerDay) with
    | error e => simp only [liftGH]; rfl
    | ok l1 =>
      simp only [liftGH]
      cases h2 : gh.getIssues repo "open" (some (now - days * secPerDay)) with
      | error e => simp only [liftGH]; rfl
      | ok l2 =>
        simp only [liftGH]
        cases h3 : gh.getIssues repo "closed" (some (now - days * secPerDay)) with
        | error e => simp only [liftGH]; rfl
        | ok l3 =>
          simp only [liftGH]
          cases h4 : gh.getPulls repo "open" with
          | error e => simp only [liftGH]; rfl
          | ok l4 =>
            simp only [liftGH]
            cases h5 : gh.getPulls repo "closed" with
            | error e => simp only [liftGH]; rfl
            | ok l5 =>
              simp only [liftGH]
              cases h6 : gh.getContributors repo with
              | error e => simp only [liftGH]; rfl
              | ok l6 => simp only [liftGH]; rfl

/-- Witness for `C3_all_or_nothing` on the all-successful upstream. -/
theorem C3_witness :
    (∃ repo, get_repository emptyUp "octo/demo" = .ok repo ∧
      isOkE (emptyUp.getCommits repo (2592000 - 30 * secPerDay)) = true ∧
      isOkE (emptyUp.getIssues repo "open" (some (2592000 - 30 * secPerDay))) = true ∧
      isOkE (emptyUp.getIssues repo "closed" (some (2592000 - 30 * secPerDay))) = true ∧
      isOkE (emptyUp.getPulls repo "open") = true ∧
      isOkE (emptyUp.getPulls repo "closed") = true ∧
      isOkE (emptyUp.getContributors repo) = true) ∧
    resultRateLimited (get_activity_metrics emptyUp "octo/demo" 30 2592000) = false := by
  obtain ⟨hA, hB⟩ := C3_all_or_nothing
  exact ⟨hA emptyUp "octo/demo" 30 2592000 _ rfl,
    hB emptyUp "octo/demo" 30 2592000 repoFix rfl⟩

/-- The chart date range is the contiguous ascending integer range
(fuel-indexed auxiliary form). -/
theorem buildDateRange_aux (d : Nat) : ∀ a b, b + 1 - a ≤ d →
    buildDateRange a b = List.range' a (b + 1 - a) := by
  induction d with
  | zero =>
      intro a b h
      rw [buildDateRange, if_neg (by omega)]
      have h0 : b + 1 - a = 0 := by omega
      rw [h0]
      rfl
  | succ m ih =>
      intro a b h
      rw [buildDateRange]
      by_cases hab : a ≤ b
      · rw [if_pos hab, ih (a + 1) b (by omega)]
        have h1 : b + 1 - a = (b + 1 - (a + 1)) + 1 := by omega
        rw [h1]
        rfl
      · rw [if_neg hab]
        have h0 : b + 1 - a = 0 := by omega
        rw [h0]
        rfl

/-- The chart date range is the contiguous ascending integer range. -/
theorem buildDateRange_eq_range' (a b : Nat) :
    buildDateRange a b = List.range' a (b + 1 - a) :=
  buildDateRange_aux (b + 1 - a) a b le_rfl

/-- When every commit carries its git-author record, the date extraction of
`generate_activity_chart` succeeds, with one date per commit, and the
extracted dates are exactly the commits' authored calendar days. -/
theorem commitDatesE_ok (l : List UpCommit)
    (h : ∀ c ∈ l, ∃ ga, c.commitAuthor = some ga) :
    ∃ ds, commitDatesE l = .ok ds ∧ ds.length = l.length ∧
      ∀ d, d ∈ ds ↔ ∃ c ∈ l, ∃ ga, c.commitAuthor = some ga ∧ dateOf ga.date = d := by
  induction l with
  | nil => exact ⟨[], rfl, rfl, by simp⟩
  | cons c rest ih =>
      obtain ⟨ga, hga⟩ := h c (List.mem_cons_self c rest)
      obtain ⟨ds, hds, hlen, hmem⟩ := ih (fun x hx => h x (List.mem_cons_of_mem c hx))
      refine ⟨dateOf ga.date :: ds, ?_, by simp [hlen], ?_⟩
      · rw [commitDatesE]
        simp only [hga, Bind.bind, Except.bind, hds]
      · intro d
        constructor
        · intro hd
          rcases List.mem_cons.mp hd with rfl | hd'
          · exact ⟨c, List.mem_cons_self c rest, ga, hga, rfl⟩
          · obtain ⟨c', hc', ga', hga', hdd⟩ := (hmem d).mp hd'
            exact ⟨c', List.mem_cons_of_mem c hc', ga', hga', hdd⟩
        · rintro ⟨c', hc', ga', hga', rfl⟩
          rcases List.mem_cons.mp hc' with rfl | hc''
          · rw [hga] at hga'
            cases hga'
            exact List.mem_cons_self _ _
          · exact List.mem_cons_of_mem _ ((hmem _).mpr ⟨c', hc'', ga', hga', rfl⟩)

/-- Sums of pointwise sums of naturals split. -/
theorem sum_map_add_nat {α : Type} (R : List α) (f g : α → Nat) :
    (R.map fun d => f d + g d).sum = (R.map f).sum + (R.map g).sum := by
  induction R with
  | nil => rfl
  | cons x t ih =>
      simp only [List.map_cons, List.sum_cons, ih]
      omega

/-- An indicator for an absent element sums to zero. -/
theorem sum_indicator_zero (t : List Nat) (x : Nat) (hx : x ∉ t) :
    (t.map fun d => if x = d then 1 else 0).sum = 0 := by
  induction t with
  | nil => rfl
  | cons y s ih =>
      have hyx : x ≠ y := fun h => hx (h ▸ List.mem_cons_self y s)
      simp only [List.map_cons, List.sum_cons, if_neg hyx,
        ih (fun h => hx (List.mem_cons_of_mem y h))]

/-- An indicator for an element of a duplicate-free list sums to one. -/
theorem sum_indicator_one (R : List Nat) (x : Nat) (hR : R.Nodup) (hx : x ∈ R) :
    (R.map fun d => if x = d then 1 else 0).sum = 1 := by
  induction R with
  | nil => cases hx
  | cons y t ih =>
      rcases List.mem_cons.mp hx with rfl | hx'
      · have hy : x ∉ t := (List.nodup_cons.mp hR).1
        simp [sum_indicator_zero t x hy]
      · have hyx : x ≠ y := by
          rintro rfl
          exact (List.nodup_cons.mp hR).1 hx'
        simp only [List.map_cons, List.sum_cons, if_neg hyx,
          ih (List.nodup_cons.mp hR).2 hx']

/-- Summing the multiplicities of a list over a duplicate-free list of
buckets that covers it recovers the list's length. -/
theorem sum_counts (R : List Nat) (hR : R.Nodup) :
    ∀ l : List Nat, (∀ x ∈ l, x ∈ R) →
      (R.map fun d => l.count d).sum = l.length := by
  intro l
  induction l with
  | nil => intro _; simp
  | cons x t ih =>
      intro hmem
      have hx : x ∈ R := hmem x (List.mem_cons_self x t)
      have ht : ∀ y ∈ t, y ∈ R := fun y hy => hmem y (List.mem_cons_of_mem x hy)
      have hcc : (R.map fun d => (x :: t).count d).sum
          = (R.map fun d => t.count d + if x = d then 1 else 0).sum := by
        simp only [List.count_cons, beq_iff_eq]
      rw [hcc, sum_map_add_nat, ih ht, sum_indicator_one R x hR hx]
      simp

/-- C5: under the upstream contract (listed commits carry git authors with
authored timestamps inside the window `[now - days, now]`), the logical
histogram has exactly `days + 1` buckets, the `k`-th bucket is the calendar
day `today - days + k` (so the buckets form the inclusive contiguous range
`[today - days, today]` sorted ascending), days without commits count zero,
and the bucket counts sum to the number of commits in the window. -/
theorem C5_histogram (gh : Upstream) (name : String) (D now : Nat)
    (repo : UpRepoData) (commits : List UpCommit)
    (hD : 0 < D) (hnow : D * secPerDay ≤ now)
    (hrepo : get_repository gh name = .ok repo)
    (hcomm : gh.getCommits repo (now - D * secPerDay) = .ok commits)
    (hauth : ∀ c ∈ commits, ∃ ga, c.commitAuthor = some ga ∧
      now - D * secPerDay ≤ ga.date ∧ ga.date ≤ now) :
    ∃ hist, generate_histogram gh name D now = .ok hist ∧
      hist.length = D + 1 ∧
      (∀ k, (hk : k < hist.length) → (hist.get ⟨k, hk⟩).1 = (dateOf now - D) + k) ∧
      (∀ p ∈ hist, (¬ ∃ c ∈ commits, ∃ ga, c.commitAuthor = some ga ∧
        dateOf ga.date = p.1) → p.2 = 0) ∧
      (hist.map Prod.snd).sum = commits.length := by
  obtain ⟨ds, hds, hdslen, hdsmem⟩ :=
    commitDatesE_ok commits (fun c hc => ((hauth c hc).imp fun ga h => h.1))
  have hDle : D ≤ dateOf now := by
    rw [dateOf, (Nat.le_div_iff_mul_le (by decide : 0 < secPerDay))]
    exact hnow
  have hsince : dateOf (now - D * secPerDay) = dateOf now - D := by
    rw [dateOf, dateOf, Nat.mul_comm D secPerDay,
      Nat.sub_mul_div now secPerDay D (Nat.mul_comm D secPerDay ▸ hnow)]
  have hrange : buildDateRange (dateOf (now - D * secPerDay)) (dateOf now) =
      List.range' (dateOf now - D) (D + 1) := by
    rw [hsince, buildDateRange_eq_range']
    congr 1
    omega
  have hhist : generate_histogram gh name D now =
      .ok ((List.range' (dateOf now - D) (D + 1)).map fun d => (d, ds.count d)) := by
    rw [generate_histogram, hrepo]
    simp only [Bind.bind, Except.bind, hcomm, liftGH, hds, hrange]
  refine ⟨_, hhist, ?_, ?_, ?_, ?_⟩
  · simp
  · intro k hk
    simp [List.get_eq_getElem, List.getElem_map, List.getElem_range'_1]
  · intro p hp hno
    obtain ⟨d, hd, rfl⟩ := List.mem_map.mp hp
    simp only
    rw [List.count_eq_zero]
    intro hdin
    exact hno ((hdsmem d).mp hdin)
  · have hsub : ∀ x ∈ ds, x ∈ List.range' (dateOf now - D) (D + 1) := by
      intro x hx
      obtain ⟨c, hc, ga, hga, hdx⟩ := (hdsmem x).mp hx
      obtain ⟨ga', hga', h1, h2⟩ := hauth c hc
      rw [hga] at hga'
      cases hga'
      rw [List.mem_range'_1]
      have hlo : dateOf (now - D * secPerDay) ≤ dateOf ga.date :=
        Nat.div_le_div_right h1
      have hhi : dateOf ga.date ≤ dateOf now := Nat.div_le_div_right h2
      rw [hsince] at hlo
      omega
    have hmm : ((List.range' (dateOf now - D) (D + 1)).map
        fun d => (d, ds.count d)).map Prod.snd =
        (List.range' (dateOf now - D) (D + 1)).map fun d => ds.count d := by
      rw [List.map_map]
      rfl
    rw [hmm, sum_counts _ (List.nodup_range' _ _) ds hsub, hdslen]

/-- A commit authored on day 8 (timestamp 700000). -/
def commitW : UpCommit :=
  { ghostCommit with commitAuthor := some { name := "Ann", date := 700000 } }

/-- Upstream delivering only `commitW`. -/
def ghHist : Upstream := { emptyUp with getCommits := fun _ _ => .ok [commitW] }

/-- Witness for `C5_histogram`: a 2-day window ending at timestamp 864000
(day 10) with one commit on day 8. -/
theorem C5_witness :
    ∃ hist, generate_histogram ghHist "octo/demo" 2 864000 = .ok hist ∧
      hist.length = 2 + 1 ∧
      (∀ k, (hk : k < hist.length) → (hist.get ⟨k, hk⟩).1 = (dateOf 864000 - 2) + k) ∧
      (∀ p ∈ hist, (¬ ∃ c ∈ [commitW], ∃ ga, c.commitAuthor = some ga ∧
        dateOf ga.date = p.1) → p.2 = 0) ∧
      (hist.map Prod.snd).sum = [commitW].length :=
  C5_histogram ghHist "octo/demo" 2 864000 repoFix [commitW]
    (by decide) (by decide) rfl rfl
    (by intro c hc; fin_cases hc; exact ⟨_, rfl, by decide, by decide⟩)
